import Mathlib

/- A shallow embedding of the power ranking script (src/rankings_script.py).
   Python lists become Lean lists, floats become rationals, dicts keyed by
   team id become association lists in insertion order (team ids are unique
   in a league, so first-match lookup agrees with dict lookup), and the
   stable sort used by list.sort and sorted(...) is modelled by the stable
   List.insertionSort. The week parameter is a Python int that callers can
   make negative, so it is modelled by Int. -/

namespace Rankings

/- Data model: the fields of espn_api League and Team that the script reads. -/

structure FantasyTeam where
  team_id : Nat
  team_name : String
  scores : List Rat
  outcomes : List String
deriving DecidableEq

structure League where
  teams : List FantasyTeam
  current_week : Nat
deriving DecidableEq

/- One entry of a weekly record mapping: the dict with keys wins, losses, score
   built in get_weekly_records. -/
structure WeekRec where
  wins : Nat
  losses : Nat
  score : Rat
deriving DecidableEq

/- The PowerRankingTeam dataclass; the actual_record dict is flattened into
   the three fields actual_wins, actual_losses, actual_ties. The fields
   median_losses and combined_losses are Int because median_losses is
   computed as week - median_wins and week can be negative. -/
structure PowerRankingTeam where
  name : String
  team_id : Nat
  ranking : Rat
  weekly_records : List WeekRec
  scores : List Rat
  actual_wins : Nat
  actual_losses : Nat
  actual_ties : Nat
  total_points : Rat
  total_wins : Nat
  total_losses : Nat
  median_wins : Nat
  median_losses : Int
  combined_wins : Nat
  combined_losses : Int
deriving DecidableEq

/- week_scores.sort(key=lambda x: x[1], reverse=True): stable, descending by
   the score component. -/
def scoreDesc (a b : Nat × Rat) : Prop := b.2 ≤ a.2

instance : DecidableRel scoreDesc := fun a b => inferInstanceAs (Decidable (b.2 ≤ a.2))

instance : IsTotal (Nat × Rat) scoreDesc := ⟨fun a b => le_total b.2 a.2⟩

instance : IsTrans (Nat × Rat) scoreDesc := ⟨fun _ _ _ h1 h2 => le_trans h2 h1⟩

/- sorted(league.teams, key=lambda x: x.team_id). -/
def teamIdLe (a b : FantasyTeam) : Prop := a.team_id ≤ b.team_id

instance : DecidableRel teamIdLe := fun a b => inferInstanceAs (Decidable (a.team_id ≤ b.team_id))

instance : IsTotal FantasyTeam teamIdLe := ⟨fun a b => Nat.le_total a.team_id b.team_id⟩

instance : IsTrans FantasyTeam teamIdLe := ⟨fun _ _ _ h1 h2 => le_trans h1 h2⟩

/- sorted(power_rankings, key=lambda x: x.ranking, reverse=True). -/
def rankingDesc (a b : PowerRankingTeam) : Prop := b.ranking ≤ a.ranking

instance : DecidableRel rankingDesc := fun a b => inferInstanceAs (Decidable (b.ranking ≤ a.ranking))

instance : IsTotal PowerRankingTeam rankingDesc := ⟨fun a b => le_total b.ranking a.ranking⟩

instance : IsTrans PowerRankingTeam rankingDesc := ⟨fun _ _ _ h1 h2 => le_trans h2 h1⟩

/- Ascending order on Rat, used by the model of statistics.median. -/
def ratLe (a b : Rat) : Prop := a ≤ b

instance : DecidableRel ratLe := fun a b => inferInstanceAs (Decidable (a ≤ b))

/- The week_scores list collected for one week inside get_weekly_records:
   (team_id, scores[week_idx]) for every team having a score at week_idx,
   in roster order. -/
def weekScores (all_teams : List FantasyTeam) (week_idx : Nat) : List (Nat × Rat) :=
  all_teams.filterMap fun team =>
    if h : week_idx < team.scores.length then
      some (team.team_id, team.scores.get ⟨week_idx, h⟩)
    else none

/- The enumerate loop that assigns wins = K - (rank + 1) and losses = rank
   to the team at 0-indexed rank in the sorted week_scores list; K is the
   length of that list. -/
def rankRecordsAux (K : Nat) : Nat → List (Nat × Rat) → List (Nat × WeekRec)
  | _, [] => []
  | rank, (team_id, score) :: rest =>
    (team_id, ⟨K - (rank + 1), rank, score⟩) :: rankRecordsAux K (rank + 1) rest

def rankRecords (week_scores : List (Nat × Rat)) : List (Nat × WeekRec) :=
  rankRecordsAux week_scores.length 0 week_scores

/- get_weekly_records(all_teams, week): range(week) is empty for week <= 0. -/
def get_weekly_records (all_teams : List FantasyTeam) (week : Int) :
    List (List (Nat × WeekRec)) :=
  (List.range week.toNat).map fun week_idx =>
    rankRecords (List.insertionSort scoreDesc (weekScores all_teams week_idx))

/- Python slicing l[:k], including the negative-k case (count from the end). -/
def pySliceTo (l : List α) (k : Int) : List α :=
  if 0 ≤ k then l.take k.toNat else l.take (l.length - (-k).toNat)

/- Dict membership test and lookup week_records[team_id]; first match, which
   agrees with the Python dict when team ids are unique. -/
def lookupRec (week_record : List (Nat × WeekRec)) (team_id : Nat) : Option WeekRec :=
  (week_record.find? fun p => p.1 == team_id).map Prod.snd

/- statistics.median: sort ascending, take the middle element for odd length
   and the mean of the two middle elements for even length. statistics.median
   raises on an empty list; the script only applies it to a week_record that
   contains at least the current team, so the 0 default below is never
   reached in the embedded calls. -/
def pymedian (l : List Rat) : Rat :=
  let s := List.insertionSort ratLe l
  if s.length % 2 = 1 then s.getD (s.length / 2) 0
  else (s.getD (s.length / 2 - 1) 0 + s.getD (s.length / 2) 0) / 2

/- The per-team loop over enumerate(weekly_records) in calculate_power_rankings:
   skip weeks at or beyond len(regular_season_scores), keep the (week_record,
   record) pairs for weeks where team_id is in the mapping. -/
def includedAux (team_id cutoff : Nat) :
    Nat → List (List (Nat × WeekRec)) → List (List (Nat × WeekRec) × WeekRec)
  | _, [] => []
  | week_idx, week_record :: rest =>
    if week_idx < cutoff then
      match lookupRec week_record team_id with
      | some rec => (week_record, rec) :: includedAux team_id cutoff (week_idx + 1) rest
      | none => includedAux team_id cutoff (week_idx + 1) rest
    else includedAux team_id cutoff (week_idx + 1) rest

/- The body of the per-team iteration of calculate_power_rankings, building
   one PowerRankingTeam. -/
def processTeam (weekly_records : List (List (Nat × WeekRec))) (week : Int)
    (team : FantasyTeam) : PowerRankingTeam :=
  let regular_season_scores := pySliceTo team.scores week
  let included := includedAux team.team_id regular_season_scores.length 0 weekly_records
  let total_wins := (included.map fun p => p.2.wins).sum
  let total_losses := (included.map fun p => p.2.losses).sum
  let median_wins :=
    included.countP fun p => decide (pymedian (p.1.map fun q => q.2.score) < p.2.score)
  let median_losses : Int := week - median_wins
  let actual_records := pySliceTo team.outcomes week
  let actual_wins := actual_records.countP fun o => o == "W"
  let actual_losses := actual_records.countP fun o => o == "L"
  let actual_ties := actual_records.countP fun o => o == "T"
  { name := team.team_name
    team_id := team.team_id
    ranking :=
      if 0 < total_wins + total_losses then
        (total_wins : Rat) / ((total_wins : Rat) + (total_losses : Rat))
      else 0
    weekly_records := included.map fun p => p.2
    scores := regular_season_scores
    actual_wins := actual_wins
    actual_losses := actual_losses
    actual_ties := actual_ties
    total_points := regular_season_scores.sum
    total_wins := total_wins
    total_losses := total_losses
    median_wins := median_wins
    median_losses := median_losses
    combined_wins := actual_wins + median_wins
    combined_losses := (actual_losses : Int) + median_losses }

/- The week-defaulting logic at the top of calculate_power_rankings: the test
   if not week is true for both None and 0. -/
def effective_week (league : League) (week : Option Int) : Int :=
  match week with
  | none => min (league.current_week : Int) 14
  | some w => if w = 0 then min (league.current_week : Int) 14 else min w 14

def calculate_power_rankings (league : League) (week : Option Int) :
    List PowerRankingTeam :=
  let w := effective_week league week
  let teams := List.insertionSort teamIdLe league.teams
  let weekly_records := get_weekly_records teams w
  List.insertionSort rankingDesc (teams.map (processTeam weekly_records w))

/- Python division, which raises ZeroDivisionError on a zero denominator. -/
def pyDiv (a b : Rat) : Except String Rat :=
  if b = 0 then Except.error "ZeroDivisionError: division by zero" else Except.ok (a / b)

/- team.total_points / len(team.scores) from print_power_rankings_table. -/
def ppg (t : PowerRankingTeam) : Except String Rat :=
  pyDiv t.total_points (t.scores.length : Rat)

/- true_win_pct from the detailed breakdown of print_power_rankings_table. -/
def true_win_pct (t : PowerRankingTeam) : Except String Rat :=
  pyDiv (t.total_wins : Rat) ((t.total_wins : Rat) + (t.total_losses : Rat))

/- median_win_pct from the detailed breakdown of print_power_rankings_table. -/
def median_win_pct (t : PowerRankingTeam) : Except String Rat :=
  pyDiv (t.median_wins : Rat) ((t.median_wins : Rat) + (t.median_losses : Rat))

/-- Modelled from the spec: the number of periods actually populated with
scores, used only to state the populated-periods clamp that the spec claims
for the effective period count. -/
def spec_populated_periods (league : League) : Nat :=
  (league.teams.map fun t => t.scores.length).foldr max 0

/- Concrete inputs used for the scenario parts of the claims. -/

def C1_teams : List FantasyTeam :=
  [⟨1, "Team 1", [100], []⟩, ⟨2, "Team 2", [80], []⟩, ⟨3, "Team 3", [90], []⟩]

/- Helper lemmas about the rank-record construction. -/

lemma rankRecordsAux_length (K : Nat) :
    ∀ (l : List (Nat × Rat)) (rank : Nat), (rankRecordsAux K rank l).length = l.length := by
  intro l
  induction l with
  | nil => intro rank; rfl
  | cons x rest ih =>
    intro rank
    cases x with
    | mk tid sc => simp [rankRecordsAux, ih]

lemma rankRecordsAux_getElem (K : Nat) :
    ∀ (l : List (Nat × Rat)) (rank i : Nat) (h : i < (rankRecordsAux K rank l).length),
      ((rankRecordsAux K rank l)[i]).2.wins = K - (rank + i + 1) ∧
      ((rankRecordsAux K rank l)[i]).2.losses = rank + i := by
  intro l
  induction l with
  | nil => intro rank i h; simp [rankRecordsAux] at h
  | cons x rest ih =>
    intro rank i h
    cases x with
    | mk tid sc =>
      cases i with
      | zero => simp [rankRecordsAux]
      | succ j =>
        have h2 : j < (rankRecordsAux K (rank + 1) rest).length := by
          have := h
          simp only [rankRecordsAux, List.length_cons] at this
          omega
        have hj := ih (rank + 1) j h2
        simp only [rankRecordsAux, List.getElem_cons_succ]
        refine ⟨?_, ?_⟩
        · rw [hj.1]; congr 1; omega
        · rw [hj.2]; omega

lemma rankRecordsAux_map_pair (K : Nat) :
    ∀ (l : List (Nat × Rat)) (rank : Nat),
      ((rankRecordsAux K rank l).map fun e => (e.1, e.2.score)) = l := by
  intro l
  induction l with
  | nil => intro rank; rfl
  | cons x rest ih =>
    intro rank
    cases x with
    | mk tid sc => simp [rankRecordsAux, ih]

lemma rankRecordsAux_map_wins (K : Nat) :
    ∀ (l : List (Nat × Rat)) (rank : Nat),
      ((rankRecordsAux K rank l).map fun e => e.2.wins) =
        (List.range l.length).map fun i => K - (rank + i + 1) := by
  intro l
  induction l with
  | nil => intro rank; rfl
  | cons x rest ih =>
    intro rank
    cases x with
    | mk tid sc =>
      have hfun : ((fun i => K - (rank + i + 1)) ∘ Nat.succ) =
          fun i => K - (rank + 1 + i + 1) := by
        funext i
        simp only [Function.comp_apply]
        congr 1
        omega
      simp only [rankRecordsAux, List.map_cons, List.length_cons, List.range_succ_eq_map,
        List.map_map, hfun, ih (rank + 1)]

lemma rankRecordsAux_map_losses (K : Nat) :
    ∀ (l : List (Nat × Rat)) (rank : Nat),
      ((rankRecordsAux K rank l).map fun e => e.2.losses) =
        (List.range l.length).map fun i => rank + i := by
  intro l
  induction l with
  | nil => intro rank; rfl
  | cons x rest ih =>
    intro rank
    cases x with
    | mk tid sc =>
      have hfun : ((fun i => rank + i) ∘ Nat.succ) = fun i => rank + 1 + i := by
        funext i
        simp only [Function.comp_apply]
        omega
      simp only [rankRecordsAux, List.map_cons, List.length_cons, List.range_succ_eq_map,
        List.map_map, hfun, ih (rank + 1)]
      simp

lemma list_range_map_sum (f : Nat → Nat) :
    ∀ n : Nat, ((List.range n).map f).sum = ∑ i in Finset.range n, f i := by
  intro n
  induction n with
  | zero => simp
  | succ k ih =>
    rw [List.range_succ, List.map_append, List.sum_append, Finset.sum_range_succ, ih]
    simp

lemma rankRecords_sum_wins_eq_sum_losses (l : List (Nat × Rat)) :
    ((rankRecords l).map fun e => e.2.wins).sum =
      ((rankRecords l).map fun e => e.2.losses).sum := by
  unfold rankRecords
  rw [rankRecordsAux_map_wins, rankRecordsAux_map_losses, list_range_map_sum, list_range_map_sum]
  have h1 : ∑ i in Finset.range l.length, (l.length - (0 + i + 1)) =
      ∑ i in Finset.range l.length, (l.length - 1 - i) :=
    Finset.sum_congr rfl fun i _ => by omega
  have h2 : ∑ i in Finset.range l.length, (l.length - 1 - i) =
      ∑ i in Finset.range l.length, i := Finset.sum_range_reflect (fun i => i) l.length
  have h3 : ∑ i in Finset.range l.length, (0 + i) = ∑ i in Finset.range l.length, i :=
    Finset.sum_congr rfl fun i _ => by omega
  rw [h1, h2, h3]

lemma get_weekly_records_getElem (all_teams : List FantasyTeam) (week : Int) (p : Nat)
    (hp : p < (get_weekly_records all_teams week).length) :
    (get_weekly_records all_teams week)[p] =
      rankRecords (List.insertionSort scoreDesc (weekScores all_teams p)) := by
  unfold get_weekly_records
  rw [List.getElem_map, List.getElem_range]

/-- C1: for every period p in range, get_weekly_records collects the
(team_id, score) pairs of the teams with a score at index p, sorts them by
score descending, and gives the team at 0-indexed sorted rank r among K
scoring teams wins = K - (r + 1) and losses = r; for team_ids 1, 2, 3 with
scores 100, 80, 90 in the single period, team 1 gets wins 2 and losses 0,
team 3 gets wins 1 and losses 1, team 2 gets wins 0 and losses 2. -/
theorem get_weekly_records_rank_formula :
    (∀ (all_teams : List FantasyTeam) (week : Int) (p : Nat)
        (hp : p < (get_weekly_records all_teams week).length),
      (get_weekly_records all_teams week)[p] =
          rankRecords (List.insertionSort scoreDesc (weekScores all_teams p)) ∧
      ((rankRecords (List.insertionSort scoreDesc (weekScores all_teams p))).map fun e =>
          (e.1, e.2.score)) = List.insertionSort scoreDesc (weekScores all_teams p) ∧
      List.Sorted scoreDesc (List.insertionSort scoreDesc (weekScores all_teams p)) ∧
      List.Perm (List.insertionSort scoreDesc (weekScores all_teams p))
        (weekScores all_teams p) ∧
      ∀ (r : Nat)
          (hr : r < (rankRecords (List.insertionSort scoreDesc (weekScores all_teams p))).length),
        ((rankRecords (List.insertionSort scoreDesc (weekScores all_teams p)))[r]).2.wins =
          (rankRecords (List.insertionSort scoreDesc (weekScores all_teams p))).length -
            (r + 1) ∧
        ((rankRecords (List.insertionSort scoreDesc (weekScores all_teams p)))[r]).2.losses =
          r) ∧
    get_weekly_records C1_teams 1 =
      [[(1, ⟨2, 0, 100⟩), (3, ⟨1, 1, 90⟩), (2, ⟨0, 2, 80⟩)]] := by
  constructor
  · intro all_teams week p hp
    refine ⟨get_weekly_records_getElem all_teams week p hp,
      rankRecordsAux_map_pair _ _ _, List.sorted_insertionSort _ _,
      List.perm_insertionSort _ _, ?_⟩
    intro r hr
    unfold rankRecords at hr ⊢
    have h := rankRecordsAux_getElem
      (List.insertionSort scoreDesc (weekScores all_teams p)).length
      (List.insertionSort scoreDesc (weekScores all_teams p)) 0 r hr
    simp only [Nat.zero_add] at h
    rw [rankRecordsAux_length]
    exact h
  · decide

/-- Witness for C1: the general formula applied to the concrete three-team
league at period 0. -/
theorem get_weekly_records_rank_formula_witness :
    (get_weekly_records C1_teams 1).get ⟨0, by decide⟩ =
        rankRecords (List.insertionSort scoreDesc (weekScores C1_teams 0)) ∧
      ((rankRecords (List.insertionSort scoreDesc (weekScores C1_teams 0))).map fun e =>
          (e.1, e.2.score)) = List.insertionSort scoreDesc (weekScores C1_teams 0) ∧
      List.Sorted scoreDesc (List.insertionSort scoreDesc (weekScores C1_teams 0)) ∧
      List.Perm (List.insertionSort scoreDesc (weekScores C1_teams 0))
        (weekScores C1_teams 0) ∧
      ∀ (r : Nat)
          (hr : r < (rankRecords (List.insertionSort scoreDesc (weekScores C1_teams 0))).length),
        ((rankRecords (List.insertionSort scoreDesc (weekScores C1_teams 0)))[r]).2.wins =
          (rankRecords (List.insertionSort scoreDesc (weekScores C1_teams 0))).length -
            (r + 1) ∧
        ((rankRecords (List.insertionSort scoreDesc (weekScores C1_teams 0)))[r]).2.losses =
          r :=
  get_weekly_records_rank_formula.1 C1_teams 1 0 (by decide)

/-- C2: every weekly mapping produced by get_weekly_records satisfies that
each scoring team has wins + losses = K - 1, where K is the number of
entries of the mapping, and the sum of wins over the mapping equals the sum
of losses over the mapping. -/
theorem get_weekly_records_invariants :
    ∀ (all_teams : List FantasyTeam) (week : Int),
      ∀ m ∈ get_weekly_records all_teams week,
        (∀ e ∈ m, e.2.wins + e.2.losses = m.length - 1) ∧
        (m.map fun e => e.2.wins).sum = (m.map fun e => e.2.losses).sum := by
  intro all_teams week m hm
  unfold get_weekly_records at hm
  rw [List.mem_map] at hm
  obtain ⟨p, _, rfl⟩ := hm
  refine ⟨?_, rankRecords_sum_wins_eq_sum_losses _⟩
  intro e he
  unfold rankRecords at he ⊢
  rw [List.mem_iff_getElem] at he
  obtain ⟨i, hi, rfl⟩ := he
  have h := rankRecordsAux_getElem
    (List.insertionSort scoreDesc (weekScores all_teams p)).length
    (List.insertionSort scoreDesc (weekScores all_teams p)) 0 i hi
  have hi2 : i < (List.insertionSort scoreDesc (weekScores all_teams p)).length := by
    rw [← rankRecordsAux_length
      (List.insertionSort scoreDesc (weekScores all_teams p)).length
      (List.insertionSort scoreDesc (weekScores all_teams p)) 0]
    exact hi
  rw [h.1, h.2, rankRecordsAux_length]
  omega

/-- Witness for C2: the invariants applied to the first mapping of the
concrete three-team league. -/
theorem get_weekly_records_invariants_witness :
    (∀ e ∈ [(1, (⟨2, 0, 100⟩ : WeekRec)), (3, ⟨1, 1, 90⟩), (2, ⟨0, 2, 80⟩)],
        e.2.wins + e.2.losses =
          [(1, (⟨2, 0, 100⟩ : WeekRec)), (3, ⟨1, 1, 90⟩), (2, ⟨0, 2, 80⟩)].length - 1) ∧
    ([(1, (⟨2, 0, 100⟩ : WeekRec)), (3, ⟨1, 1, 90⟩), (2, ⟨0, 2, 80⟩)].map fun e =>
        e.2.wins).sum =
      ([(1, (⟨2, 0, 100⟩ : WeekRec)), (3, ⟨1, 1, 90⟩), (2, ⟨0, 2, 80⟩)].map fun e =>
        e.2.losses).sum :=
  get_weekly_records_invariants C1_teams 1
    [(1, ⟨2, 0, 100⟩), (3, ⟨1, 1, 90⟩), (2, ⟨0, 2, 80⟩)] (by decide)

/- Unfolding and projection lemmas for the aggregator. -/

lemma calculate_power_rankings_eq (league : League) (week : Option Int) :
    calculate_power_rankings league week =
      List.insertionSort rankingDesc
        ((List.insertionSort teamIdLe league.teams).map
          (processTeam
            (get_weekly_records (List.insertionSort teamIdLe league.teams)
              (effective_week league week))
            (effective_week league week))) := rfl

lemma processTeam_team_id (wr : List (List (Nat × WeekRec))) (w : Int) (t : FantasyTeam) :
    (processTeam wr w t).team_id = t.team_id := rfl

lemma processTeam_scores (wr : List (List (Nat × WeekRec))) (w : Int) (t : FantasyTeam) :
    (processTeam wr w t).scores = pySliceTo t.scores w := rfl

lemma processTeam_total_points (wr : List (List (Nat × WeekRec))) (w : Int) (t : FantasyTeam) :
    (processTeam wr w t).total_points = (pySliceTo t.scores w).sum := rfl

lemma processTeam_total_wins (wr : List (List (Nat × WeekRec))) (w : Int) (t : FantasyTeam) :
    (processTeam wr w t).total_wins =
      ((includedAux t.team_id (pySliceTo t.scores w).length 0 wr).map fun p =>
        p.2.wins).sum := rfl

lemma processTeam_total_losses (wr : List (List (Nat × WeekRec))) (w : Int) (t : FantasyTeam) :
    (processTeam wr w t).total_losses =
      ((includedAux t.team_id (pySliceTo t.scores w).length 0 wr).map fun p =>
        p.2.losses).sum := rfl

lemma processTeam_median_wins (wr : List (List (Nat × WeekRec))) (w : Int) (t : FantasyTeam) :
    (processTeam wr w t).median_wins =
      (includedAux t.team_id (pySliceTo t.scores w).length 0 wr).countP fun p =>
        decide (pymedian (p.1.map fun q => q.2.score) < p.2.score) := rfl

lemma processTeam_median_losses (wr : List (List (Nat × WeekRec))) (w : Int) (t : FantasyTeam) :
    (processTeam wr w t).median_losses = w - (processTeam wr w t).median_wins := rfl

lemma processTeam_ranking (wr : List (List (Nat × WeekRec))) (w : Int) (t : FantasyTeam) :
    (processTeam wr w t).ranking =
      if 0 < (processTeam wr w t).total_wins + (processTeam wr w t).total_losses then
        ((processTeam wr w t).total_wins : Rat) /
          (((processTeam wr w t).total_wins : Rat) + ((processTeam wr w t).total_losses : Rat))
      else 0 := rfl

lemma mem_calculate_power_rankings (league : League) (week : Option Int)
    (r : PowerRankingTeam) :
    r ∈ calculate_power_rankings league week ↔
      ∃ t ∈ List.insertionSort teamIdLe league.teams,
        processTeam
          (get_weekly_records (List.insertionSort teamIdLe league.teams)
            (effective_week league week))
          (effective_week league week) t = r := by
  rw [calculate_power_rankings_eq, (List.perm_insertionSort rankingDesc _).mem_iff,
    List.mem_map]

/- Scenario inputs for the aggregator claims. -/

def medTeam3 : FantasyTeam := ⟨3, "Median 3", [100], []⟩

def lgMedian : League :=
  ⟨[⟨1, "Median 1", [50], []⟩, ⟨2, "Median 2", [50], []⟩, medTeam3], 1⟩

def soloTeam : FantasyTeam := ⟨1, "Solo", [100], ["W"]⟩

def lgSolo : League := ⟨[soloTeam], 1⟩

def lgNoScores : League := ⟨[⟨1, "Empty", [], []⟩], 0⟩

def lgNeg : League := ⟨[⟨1, "Negative", [10, 20, 30], ["W", "L", "W"]⟩], 3⟩

def rSolo : PowerRankingTeam :=
  processTeam
    (get_weekly_records (List.insertionSort teamIdLe lgSolo.teams)
      (effective_week lgSolo (some 1)))
    (effective_week lgSolo (some 1)) soloTeam

def rMed : PowerRankingTeam :=
  processTeam
    (get_weekly_records (List.insertionSort teamIdLe lgMedian.teams)
      (effective_week lgMedian (some 1)))
    (effective_week lgMedian (some 1)) medTeam3

/-- C3: every entry of the aggregator output has ranking equal to
total_wins / (total_wins + total_losses) when total_wins + total_losses is
positive and ranking = 0 when that denominator is zero. -/
theorem calculate_power_rankings_ranking_field :
    ∀ (league : League) (week : Option Int),
      ∀ r ∈ calculate_power_rankings league week,
        r.ranking =
          if 0 < r.total_wins + r.total_losses then
            (r.total_wins : Rat) / ((r.total_wins : Rat) + (r.total_losses : Rat))
          else 0 := by
  intro lg wk r hr
  rw [mem_calculate_power_rankings] at hr
  obtain ⟨t, ht, rfl⟩ := hr
  exact processTeam_ranking _ _ _

/-- Witness for C3: the ranking formula applied to the single entry of a
one-team league, where the denominator is zero and the ranking is 0. -/
theorem calculate_power_rankings_ranking_field_witness :
    rSolo.ranking =
      if 0 < rSolo.total_wins + rSolo.total_losses then
        (rSolo.total_wins : Rat) / ((rSolo.total_wins : Rat) + (rSolo.total_losses : Rat))
      else 0 :=
  calculate_power_rankings_ranking_field lgSolo (some 1) rSolo
    ((mem_calculate_power_rankings lgSolo (some 1) rSolo).mpr ⟨soloTeam, by decide, rfl⟩)

/-- C4: a median-win is counted exactly for the processed periods, within
the cutoff, whose record score strictly exceeds the median of all scoring
team scores of that period, median_losses is the effective week count minus
median_wins, and in the 50, 50, 100 scenario only the team scoring 100 gets
a median-win while both teams scoring 50 get a median-loss. -/
theorem calculate_power_rankings_median_rule :
    (∀ (league : League) (week : Option Int),
      ∀ r ∈ calculate_power_rankings league week,
        r.median_losses = effective_week league week - r.median_wins) ∧
    (∀ (wr : List (List (Nat × WeekRec))) (w : Int) (t : FantasyTeam),
      (processTeam wr w t).median_wins =
        (includedAux t.team_id (pySliceTo t.scores w).length 0 wr).countP fun p =>
          decide (pymedian (p.1.map fun q => q.2.score) < p.2.score)) ∧
    (calculate_power_rankings lgMedian (some 1)).map
        (fun r => (r.team_id, r.median_wins, r.median_losses)) =
      [(3, 1, 0), (1, 0, 1), (2, 0, 1)] := by
  refine ⟨?_, processTeam_median_wins, ?_⟩
  · intro lg wk r hr
    rw [mem_calculate_power_rankings] at hr
    obtain ⟨t, ht, rfl⟩ := hr
    exact processTeam_median_losses _ _ _
  · norm_num [calculate_power_rankings, effective_week, get_weekly_records, weekScores,
      rankRecords, rankRecordsAux, processTeam, includedAux, lookupRec, pymedian, pySliceTo,
      List.insertionSort, List.orderedInsert, scoreDesc, teamIdLe, rankingDesc, ratLe,
      lgMedian, medTeam3, List.range_succ, List.find?_cons_of_pos, List.find?_cons_of_neg,
      List.find?_nil, List.countP_cons, List.countP_nil, decide_eq_true_eq]

/-- Witness for C4: the median-loss formula applied to the team scoring 100
of the median scenario league. -/
theorem calculate_power_rankings_median_rule_witness :
    rMed.median_losses = effective_week lgMedian (some 1) - rMed.median_wins :=
  calculate_power_rankings_median_rule.1 lgMedian (some 1) rMed
    ((mem_calculate_power_rankings lgMedian (some 1) rMed).mpr ⟨medTeam3, by decide, rfl⟩)

/-- C6 counterexample: with one team having a single recorded score, a
requested period count of 5 yields an effective period count of 5, which is
not clamped to the single populated period; the lone entry of the output
accordingly gets median_losses = 5 computed over five periods. -/
theorem effective_week_not_clamped_to_populated :
    effective_week lgSolo (some 5) = 5 ∧
    spec_populated_periods lgSolo = 1 ∧
    ¬ effective_week lgSolo (some 5) ≤ (spec_populated_periods lgSolo : Int) ∧
    (calculate_power_rankings lgSolo (some 5)).map (fun r => r.median_losses) = [5] :=
  ⟨by decide, by decide, by decide, rfl⟩

/-- C6 amended: the effective period count is the requested count clamped
only to the season ceiling 14 when the request is present and nonzero, and
min(current_week, 14) when the request is absent; it is not clamped to the
number of periods actually populated with scores. -/
theorem effective_week_formula :
    ∀ (league : League) (w : Int),
      effective_week league none = min (league.current_week : Int) 14 ∧
      effective_week league (some w) =
        (if w = 0 then min (league.current_week : Int) 14 else min w 14) :=
  fun _ _ => ⟨rfl, rfl⟩

/-- C7: the ratios of print_power_rankings_table are not guarded; for a team
with zero included periods the points-per-game division and the true and
median win-percentage divisions all raise ZeroDivisionError instead of
resolving to a sentinel 0. -/
theorem print_table_ratios_zero_division :
    (calculate_power_rankings lgNoScores none).map
        (fun r => (ppg r, true_win_pct r, median_win_pct r)) =
      [(Except.error "ZeroDivisionError: division by zero",
        Except.error "ZeroDivisionError: division by zero",
        Except.error "ZeroDivisionError: division by zero")] ∧
    (calculate_power_rankings lgNoScores (some 5)).map
        (fun r => (ppg r, true_win_pct r)) =
      [(Except.error "ZeroDivisionError: division by zero",
        Except.error "ZeroDivisionError: division by zero")] := by
  constructor
  · norm_num [calculate_power_rankings, effective_week, get_weekly_records, weekScores,
      rankRecords, rankRecordsAux, processTeam, includedAux, lookupRec, pymedian, pySliceTo,
      List.insertionSort, List.orderedInsert, scoreDesc, teamIdLe, rankingDesc, ratLe,
      lgNoScores, pyDiv, ppg, true_win_pct, median_win_pct]
  · norm_num [calculate_power_rankings, effective_week, get_weekly_records, weekScores,
      rankRecords, rankRecordsAux, processTeam, includedAux, lookupRec, pymedian, pySliceTo,
      List.insertionSort, List.orderedInsert, scoreDesc, teamIdLe, rankingDesc, ratLe,
      lgNoScores, pyDiv, ppg, true_win_pct, median_win_pct]

/-- C8: a negative requested period count is not rejected:
calculate_power_rankings returns a one-entry result list whose scores were
silently truncated by the negative slice and whose median_losses is the
negative requested count. -/
theorem calculate_negative_week_returns_result :
    (calculate_power_rankings lgNeg (some (-1))).length = 1 ∧
    (calculate_power_rankings lgNeg (some (-1))).map
        (fun r => (r.team_id, r.scores, r.median_losses, r.total_points)) =
      [(1, [10, 20], -1, 30)] := by
  refine ⟨rfl, ?_⟩
  norm_num [calculate_power_rankings, effective_week, get_weekly_records, weekScores,
    rankRecords, rankRecordsAux, processTeam, includedAux, lookupRec, pymedian, pySliceTo,
    List.insertionSort, List.orderedInsert, scoreDesc, teamIdLe, rankingDesc, ratLe, lgNeg]

/-- C10: an explicit week argument of 0 is treated like an absent argument:
the effective period count is min(current_week, 14) rather than 0. -/
theorem effective_week_zero_defaults :
    ∀ league : League,
      effective_week league (some 0) = effective_week league none ∧
      effective_week league (some 0) = min (league.current_week : Int) 14 :=
  fun _ => ⟨rfl, rfl⟩

/- Stability of the final sort: descending by ranking, and on equal rankings
   the order of the team_id-sorted input, hence ascending team_id. -/

def rankingTieLex (a b : PowerRankingTeam) : Prop :=
  b.ranking < a.ranking ∨ (b.ranking = a.ranking ∧ a.team_id < b.team_id)

lemma pairwise_orderedInsert_rankingTieLex (a : PowerRankingTeam) :
    ∀ l : List PowerRankingTeam, l.Pairwise rankingTieLex →
      (∀ x ∈ l, a.team_id < x.team_id) →
      (List.orderedInsert rankingDesc a l).Pairwise rankingTieLex := by
  intro l
  induction l with
  | nil =>
    intro _ _
    simp [List.orderedInsert]
  | cons b t ih =>
    intro h1 h2
    rw [List.pairwise_cons] at h1
    by_cases hab : rankingDesc a b
    · rw [List.orderedInsert_of_le rankingDesc t hab, List.pairwise_cons]
      refine ⟨?_, List.pairwise_cons.mpr h1⟩
      intro x hx
      rcases List.mem_cons.mp hx with rfl | hxt
      · rcases lt_or_eq_of_le (hab : x.ranking ≤ a.ranking) with hlt | heq
        · exact Or.inl hlt
        · exact Or.inr ⟨heq, h2 x (List.mem_cons_self x t)⟩
      · rcases h1.1 x hxt with hlt | ⟨heq, _⟩
        · exact Or.inl (lt_of_lt_of_le hlt (hab : b.ranking ≤ a.ranking))
        · rcases lt_or_eq_of_le (hab : b.ranking ≤ a.ranking) with hblt | hbeq
          · exact Or.inl (by rw [heq]; exact hblt)
          · exact Or.inr ⟨by rw [heq, hbeq], h2 x (List.mem_cons_of_mem b hxt)⟩
    · simp only [List.orderedInsert, if_neg hab]
      rw [List.pairwise_cons]
      refine ⟨?_, ih h1.2 fun x hx => h2 x (List.mem_cons_of_mem b hx)⟩
      intro x hx
      rw [List.mem_orderedInsert] at hx
      rcases hx with rfl | hxt
      · exact Or.inl (not_le.mp hab)
      · exact h1.1 x hxt

lemma pairwise_insertionSort_rankingTieLex :
    ∀ l : List PowerRankingTeam, l.Pairwise (fun a b => a.team_id < b.team_id) →
      (List.insertionSort rankingDesc l).Pairwise rankingTieLex := by
  intro l
  induction l with
  | nil =>
    intro _
    simp [List.insertionSort]
  | cons a t ih =>
    intro h
    rw [List.pairwise_cons] at h
    simp only [List.insertionSort]
    exact pairwise_orderedInsert_rankingTieLex a _ (ih h.2)
      fun x hx => h.1 x ((List.perm_insertionSort rankingDesc t).mem_iff.mp hx)

def lgTie : League := ⟨[⟨1, "Tie 1", [100, 80], []⟩, ⟨2, "Tie 2", [80, 100], []⟩], 2⟩

/-- C5: when team ids are distinct, the aggregator output is sorted
descending by ranking, and on equal rankings the entry with the smaller
team_id comes first, reflecting the stable sort over the team_id-sorted
input. -/
theorem calculate_power_rankings_sorted_stable :
    ∀ (league : League) (week : Option Int),
      (league.teams.map fun t => t.team_id).Nodup →
      List.Sorted rankingDesc (calculate_power_rankings league week) ∧
      (calculate_power_rankings league week).Pairwise rankingTieLex := by
  intro lg wk hnd
  rw [calculate_power_rankings_eq]
  refine ⟨List.sorted_insertionSort rankingDesc _, ?_⟩
  apply pairwise_insertionSort_rankingTieLex
  rw [List.pairwise_map]
  simp only [processTeam_team_id]
  have hsorted : (List.insertionSort teamIdLe lg.teams).Pairwise teamIdLe :=
    List.sorted_insertionSort teamIdLe lg.teams
  have hnd2 : ((List.insertionSort teamIdLe lg.teams).map fun t => t.team_id).Nodup :=
    ((List.perm_insertionSort teamIdLe lg.teams).map fun t => t.team_id).nodup_iff.mpr hnd
  have hne : (List.insertionSort teamIdLe lg.teams).Pairwise
      fun a b => a.team_id ≠ b.team_id := by
    rw [List.Nodup, List.pairwise_map] at hnd2
    exact hnd2
  exact (hsorted.and hne).imp fun hab => lt_of_le_of_ne hab.1 hab.2

/-- Witness for C5: the sortedness and stability of the output of a
two-team league whose teams tie at ranking one half. -/
theorem calculate_power_rankings_sorted_stable_witness :
    List.Sorted rankingDesc (calculate_power_rankings lgTie (some 2)) ∧
    (calculate_power_rankings lgTie (some 2)).Pairwise rankingTieLex :=
  calculate_power_rankings_sorted_stable lgTie (some 2) (by decide)

/- A team whose score list contributes nothing inside the window. -/

lemma includedAux_cutoff_zero (team_id : Nat) :
    ∀ (week_idx : Nat) (l : List (List (Nat × WeekRec))),
      includedAux team_id 0 week_idx l = [] := by
  intro week_idx l
  induction l generalizing week_idx with
  | nil => rfl
  | cons wr rest ih => simp [includedAux, ih]

lemma processTeam_of_no_scores (wr : List (List (Nat × WeekRec))) (w : Int)
    (t : FantasyTeam) (h : pySliceTo t.scores w = []) :
    (processTeam wr w t).total_wins = 0 ∧ (processTeam wr w t).total_losses = 0 ∧
    (processTeam wr w t).total_points = 0 ∧ (processTeam wr w t).ranking = 0 := by
  have hlen : (pySliceTo t.scores w).length = 0 := by rw [h]; rfl
  have hinc : includedAux t.team_id (pySliceTo t.scores w).length 0 wr = [] := by
    rw [hlen]
    exact includedAux_cutoff_zero t.team_id 0 wr
  have hw : (processTeam wr w t).total_wins = 0 := by
    rw [processTeam_total_wins, hinc]; rfl
  have hl : (processTeam wr w t).total_losses = 0 := by
    rw [processTeam_total_losses, hinc]; rfl
  have hp : (processTeam wr w t).total_points = 0 := by
    rw [processTeam_total_points, h]; rfl
  have hr : (processTeam wr w t).ranking = 0 := by
    rw [processTeam_ranking, hw, hl]
    simp
  exact ⟨hw, hl, hp, hr⟩

def zeroTeam : FantasyTeam := ⟨1, "Zero", [], []⟩

def lgZero : League := ⟨[zeroTeam, ⟨2, "Busy", [50, 60], ["W", "L"]⟩], 2⟩

/-- C9: a team with no recorded scores inside the requested window still
appears exactly once in the aggregator output, with total_wins = 0,
total_losses = 0, total_points = 0 and ranking = 0. -/
theorem calculate_power_rankings_scoreless_team :
    ∀ (league : League) (week : Option Int) (t : FantasyTeam),
      t ∈ league.teams →
      pySliceTo t.scores (effective_week league week) = [] →
      (league.teams.map fun u => u.team_id).Nodup →
      ((calculate_power_rankings league week).countP fun r => r.team_id == t.team_id) = 1 ∧
      ∀ r ∈ calculate_power_rankings league week, r.team_id = t.team_id →
        r.total_wins = 0 ∧ r.total_losses = 0 ∧ r.total_points = 0 ∧ r.ranking = 0 := by
  intro lg wk t hmem hsl hnd
  constructor
  · rw [calculate_power_rankings_eq, (List.perm_insertionSort rankingDesc _).countP_eq,
      List.countP_map]
    have hfun : ((fun r : PowerRankingTeam => r.team_id == t.team_id) ∘
        processTeam
          (get_weekly_records (List.insertionSort teamIdLe lg.teams)
            (effective_week lg wk))
          (effective_week lg wk)) = fun u : FantasyTeam => u.team_id == t.team_id := by
      funext u
      simp [Function.comp, processTeam_team_id]
    rw [hfun, (List.perm_insertionSort teamIdLe lg.teams).countP_eq]
    have hcount : (lg.teams.map fun u => u.team_id).count t.team_id = 1 :=
      List.count_eq_one_of_mem hnd (List.mem_map_of_mem _ hmem)
    rw [List.count, List.countP_map] at hcount
    have hfun2 : ((fun x => x == t.team_id) ∘ fun u : FantasyTeam => u.team_id) =
        fun u : FantasyTeam => u.team_id == t.team_id := by
      funext u
      simp [Function.comp]
    rw [hfun2] at hcount
    exact hcount
  · intro r hr hid
    rw [mem_calculate_power_rankings] at hr
    obtain ⟨u, hu, rfl⟩ := hr
    rw [processTeam_team_id] at hid
    have hu2 : u ∈ lg.teams := (List.perm_insertionSort teamIdLe lg.teams).mem_iff.mp hu
    have hut : u = t := List.inj_on_of_nodup_map hnd hu2 hmem hid
    subst hut
    exact processTeam_of_no_scores _ _ _ hsl

/-- Witness for C9: the scoreless-team guarantee applied to a two-team
league whose first team has no scores, with requested week 5. -/
theorem calculate_power_rankings_scoreless_team_witness :
    ((calculate_power_rankings lgZero (some 5)).countP fun r =>
      r.team_id == zeroTeam.team_id) = 1 ∧
    ∀ r ∈ calculate_power_rankings lgZero (some 5), r.team_id = zeroTeam.team_id →
      r.total_wins = 0 ∧ r.total_losses = 0 ∧ r.total_points = 0 ∧ r.ranking = 0 :=
  calculate_power_rankings_scoreless_team lgZero (some 5) zeroTeam (by decide) (by decide)
    (by decide)

end Rankings
